import Mathlib

/-!
Shallow embedding of `game_graph.py` (Steam-Recommender-Project): the `Game`
record, the `GameNode`/`GameGraph` similarity graph, the scoring pass and the
two top-N ranking functions, together with theorems checking the
specification's claims about them.

Modelling conventions:
* Python `float` values (prices, weights, scores) are modelled as exact
  rationals `ℚ`; IEEE rounding is idealized away (noted where it matters).
  Python `int` is `Int`.
* Python dictionaries are insertion-ordered association lists; assigning to
  an existing key replaces the value in place keeping the key's position,
  and a fresh key is appended at the end.
* Graph nodes are mutable objects holding references to their neighbour
  nodes.  We use an arena model: the arena is the `_nodes` dictionary, a
  node reference is the node's game id, and `_user_nodes` (which in the
  source holds the same node objects under the same keys as `_nodes`) is
  modelled by its key list, resolved through the arena.  An anchor key
  absent from the arena cannot occur under the class's stated
  representation invariant
  `all(game_id in self._nodes for game_id in self._user_nodes)`;
  the model maps that unreachable resolution miss to `KeyError`.
* Exceptions are modelled with `Except PyErr`; a raising method returns
  `.error e` (the partially mutated state at the moment of the raise is not
  retained, as no claim depends on it).
* `GameGraph.__init__` assigns only the three user-profile fields and never
  creates the `_nodes` / `_user_nodes` dictionaries, so those two
  attributes are modelled as `Option`s, `none` meaning "attribute not
  present"; touching a missing attribute raises `AttributeError`.
* A Python `set` of `Game` objects is modelled as a list iterated in
  first-insertion order (CPython's actual set iteration order is an
  unspecified identity-hash order; order-sensitive statements below are
  relative to this modelled order).
-/

/-- The Python exceptions the embedded code can raise. -/
inductive PyErr where
  | typeError
  | zeroDivisionError
  | attributeError
  | keyError
  | assertionError
  | indexError
deriving DecidableEq, Repr

/-- The `Game` record.  `rating` is never assigned by `Game.__init__`
(`none` = attribute missing); `compute_score` would be the only writer. -/
structure Game where
  name : String
  game_id : Int
  genres : List String
  price : ℚ
  positive_ratio : Int
  rating : Option ℚ
deriving DecidableEq, Repr

/-- `Game.__init__`: `game_info` is the `(game_id, name)` pair. -/
def Game.init (game_info : Int × String) (genres : List String) (price : ℚ)
    (positive_ratio : Int) : Game :=
  { name := game_info.2, game_id := game_info.1, genres := genres,
    price := price, positive_ratio := positive_ratio, rating := none }

/-- `Game.genre_count` from the source.  The body builds `lowered_list` and
`list_so_far`, but the final statement is `return len(list)`: `list` there is
the Python builtin type (not `list_so_far`), and `len` applied to a type
raises `TypeError` — on every input. -/
def Game.genre_count (self : Game) (genre_collection : List String) :
    Except PyErr Nat :=
  let lowered_list := genre_collection.map (fun genre => genre.toLower)
  let list_so_far := self.genres.filter (fun genre => genre.toLower ∈ lowered_list)
  -- return len(list)
  let _ := list_so_far
  .error .typeError

/-- A node of the graph; `neighbours` holds references to neighbour nodes,
modelled arena-style as their game ids. -/
structure GameNode where
  game : Game
  neighbours : List Int
deriving DecidableEq, Repr

/-- `GameNode.__init__`. -/
def GameNode.init (game : Game) : GameNode :=
  { game := game, neighbours := [] }

/-- The `_nodes` dictionary: insertion-ordered mapping from game id to node. -/
abbrev NodeDict := List (Int × GameNode)

/-- Python dict assignment `d[k] = v`: replace in place if the key exists,
keeping the key's position; otherwise append at the end. -/
def dictSet (d : NodeDict) (k : Int) (v : GameNode) : NodeDict :=
  match d with
  | [] => [(k, v)]
  | (k1, v1) :: rest => if k1 = k then (k, v) :: rest else (k1, v1) :: dictSet rest k v

/-- Python dict lookup `d[k]`, as an `Option`. -/
def dictGet (d : NodeDict) (k : Int) : Option GameNode :=
  match d with
  | [] => none
  | (k1, v1) :: rest => if k1 = k then some v1 else dictGet rest k

/-- The dict's keys, in iteration order. -/
def dictKeys (d : NodeDict) : List Int := d.map (fun kv => kv.1)

/-- In-place update of the value stored at a key (no-op on a missing key;
every use below is at a present key). -/
def dictModify (d : NodeDict) (k : Int) (f : GameNode → GameNode) : NodeDict :=
  match d with
  | [] => []
  | (k1, v1) :: rest => if k1 = k then (k1, f v1) :: rest else (k1, v1) :: dictModify rest k f

/-- Key insertion for the `_user_nodes` dictionary, modelled by its key
list (the stored value is the arena node at the same key). -/
def keySet (l : List Int) (k : Int) : List Int :=
  if k ∈ l then l else l ++ [k]

/-- The `GameGraph` object.  `_nodes` and `_user_nodes` are `Option`s
because `GameGraph.__init__` never creates them (see the module comment). -/
structure GameGraph where
  user_game_ids : List Int
  user_game_genres : List String
  user_max_price : ℚ
  _nodes : Option NodeDict
  _user_nodes : Option (List Int)
deriving DecidableEq, Repr

/-- `GameGraph.__init__`: assigns only the three user-profile fields; the
`_nodes` and `_user_nodes` attributes are never created. -/
def GameGraph.init (user_game_ids : List Int) (user_game_genres : List String)
    (user_max_price : ℚ) : GameGraph :=
  { user_game_ids := user_game_ids
    user_game_genres := user_game_genres
    user_max_price := user_max_price
    _nodes := none
    _user_nodes := none }

/-- Python `==` between a `str` and an `int`: always `False` (no error). -/
def pyStrEqInt (_s : String) (_i : Int) : Bool := false

/-- Python `x in xs` for a `str` value `x` and a `list[int]` value `xs`:
elementwise `==` between a string and an int, hence always `False`. -/
def pyStrInIntList (s : String) (xs : List Int) : Bool :=
  xs.any (fun i => pyStrEqInt s i)

/-- `GameGraph.add_game`.  Note the source's anchor-registration test is
`game.name.lower() in self.user_game_ids`: a string compared against a list
of ints. -/
def GameGraph.add_game (self : GameGraph) (game : Game) : Except PyErr GameGraph :=
  match self._nodes with
  | none => .error .attributeError      -- `self._nodes` was never created
  | some ns =>
    let game_id := game.game_id
    let game_node := GameNode.init game
    let self1 := { self with _nodes := some (dictSet ns game_id game_node) }
    if pyStrInIntList game.name.toLower self.user_game_ids then
      match self1._user_nodes with
      | none => .error .attributeError
      | some us => .ok { self1 with _user_nodes := some (keySet us game_id) }
    else
      .ok self1

/-- `GameGraph.add_edge`, at the arena level: append each endpoint's id to
the other endpoint's neighbour list (`game1.neighbours.append(user_node)`;
`user_node.neighbours.append(game1)`). -/
def add_edge (ns : NodeDict) (game1 : Int) (user_node : Int) : NodeDict :=
  let ns1 := dictModify ns game1 (fun n => { n with neighbours := n.neighbours ++ [user_node] })
  dictModify ns1 user_node (fun n => { n with neighbours := n.neighbours ++ [game1] })

/-- `self._user_nodes[k]`: `KeyError` when `k` is not an anchor key;
otherwise the stored node, which is the arena node at `k` (see the module
comment on the unreachable arena miss). -/
def userNodesGet (ns : NodeDict) (us : List Int) (k : Int) : Except PyErr GameNode :=
  if k ∈ us then
    match dictGet ns k with
    | some node => .ok node
    | none => .error .keyError
  else .error .keyError

/-- The inner loop of `add_all_edges` for a fixed `user_id`, over the node
keys `others`.  Each iteration re-reads `self._user_nodes[user_id]`, then
evaluates `self._user_nodes[other_id]` — the source indexes the *anchor*
dictionary with an id drawn from `self._nodes`, so a non-anchor id raises
`KeyError`.  The `user_node != other_node` test is object identity:
distinct dict keys hold distinct node objects. -/
def addEdgesInner (us : List Int) (user_id : Int) (others : List Int) (ns : NodeDict) :
    Except PyErr NodeDict :=
  match others with
  | [] => .ok ns
  | other_id :: rest =>
    match userNodesGet ns us user_id with
    | .error e => .error e
    | .ok _ =>
      match userNodesGet ns us other_id with
      | .error e => .error e
      | .ok _ =>
        addEdgesInner us user_id rest
          (if user_id ≠ other_id then add_edge ns other_id user_id else ns)

/-- The outer loop of `add_all_edges`, over the anchor keys. -/
def addEdgesOuter (us : List Int) (usIter : List Int) (ns : NodeDict) :
    Except PyErr NodeDict :=
  match usIter with
  | [] => .ok ns
  | user_id :: rest =>
    match addEdgesInner us user_id (dictKeys ns) ns with
    | .error e => .error e
    | .ok ns1 => addEdgesOuter us rest ns1

/-- `GameGraph.add_all_edges`. -/
def GameGraph.add_all_edges (self : GameGraph) : Except PyErr GameGraph :=
  match self._user_nodes with
  | none => .error .attributeError      -- `for user_id in self._user_nodes`
  | some us =>
    match us with
    | [] => .ok self                    -- empty outer loop; `self._nodes` is never touched
    | _ :: _ =>
      match self._nodes with
      | none => .error .attributeError  -- `for other_id in self._nodes`
      | some ns =>
        match addEdgesOuter us us ns with
        | .error e => .error e
        | .ok ns1 => .ok { self with _nodes := some ns1 }

/-- The loop of `GameGraph.max_price`: running maximum starting at `0.0`. -/
def maxPriceList (ns : NodeDict) : ℚ :=
  ns.foldl (fun max_so_far kv =>
    if kv.2.game.price > max_so_far then kv.2.game.price else max_so_far) 0

/-- `GameGraph.max_price`. -/
def GameGraph.max_price (self : GameGraph) : Except PyErr ℚ :=
  match self._nodes with
  | none => .error .attributeError
  | some ns => .ok (maxPriceList ns)

/-- The loop of `GameGraph.max_positive_ratio`: running maximum from `0`. -/
def maxRatioList (ns : NodeDict) : Int :=
  ns.foldl (fun max_so_far kv =>
    if kv.2.game.positive_ratio > max_so_far then kv.2.game.positive_ratio else max_so_far) 0

/-- `GameGraph.max_positive_ratio`. -/
def GameGraph.max_positive_ratio (self : GameGraph) : Except PyErr Int :=
  match self._nodes with
  | none => .error .attributeError
  | some ns => .ok (maxRatioList ns)

/-- The anchor-genre accumulation of `GameGraph.user_genres`: a Python
`set` built by iterating the anchors, modelled as a deduplicating list in
first-encounter order (callers use only its size and membership). -/
def collectGenres (ns : NodeDict) (us : List Int) (acc : List String) :
    Except PyErr (List String) :=
  match us with
  | [] => .ok acc
  | game_id :: rest =>
    match dictGet ns game_id with
    | none => .error .keyError          -- arena-resolution miss (module comment)
    | some node =>
      collectGenres ns rest
        (node.game.genres.foldl (fun a genre => if genre ∈ a then a else a ++ [genre]) acc)

/-- `GameGraph.user_genres`: the configured genre list when non-empty,
otherwise the union of the anchor games' genres. -/
def GameGraph.user_genres (self : GameGraph) : Except PyErr (List String) :=
  if self.user_game_genres ≠ [] then .ok self.user_game_genres
  else
    match self._user_nodes with
    | none => .error .attributeError
    | some us =>
      match us with
      | [] => .ok []
      | _ :: _ =>
        match self._nodes with
        | none => .error .attributeError  -- arena resolution (module comment)
        | some ns => collectGenres ns us []

/-- `GameGraph.compute_score`.  The `game_node` parameter is a node
reference, modelled by its arena id (the caller `assign_all_scores` passes
`self._nodes[game_id]`; the documented precondition is
`game_node in self._nodes`).

The weights are exact rationals here, so the weight-sum assertion of line
182 passes.  (Note: under IEEE double semantics `0.6 + 0.3 + 0.1 == 1.0` is
already `False` — the sum is the double below `1.0` — so the Python
function raises `AssertionError` before computing any signal; the rational
idealization is the generous reading.)  Line 191 evaluates the numerator
`game.genre_count(user_genres)` before the division, and `genre_count`
raises `TypeError` on every input, so no branch that assigns
`game.rating` is ever reached. -/
def GameGraph.compute_score (self : GameGraph) (game_id : Int) : Except PyErr GameGraph :=
  match self._nodes with
  | none => .error .attributeError
  | some ns =>
  match dictGet ns game_id with
  | none => .error .keyError            -- excluded by the documented precondition
  | some game_node =>
  let rating_price_weight : ℚ := 0.6
  let neighbour_weight : ℚ := 0.3
  let genre_weight : ℚ := 0.1
  if rating_price_weight + neighbour_weight + genre_weight = 1.0 then
    match self.user_genres with
    | .error e => .error e
    | .ok user_genres =>
    let game := game_node.game
    let max_price := maxPriceList ns
    let max_ratio := maxRatioList ns
    -- line 189: `game.positive_ratio / max_ratio`, then
    -- `(max_price - game.price) / max_price`
    if max_ratio = 0 then .error .zeroDivisionError
    else if max_price = 0 then .error .zeroDivisionError
    else
      let rating_price := ((game.positive_ratio : ℚ) / (max_ratio : ℚ)) *
        ((max_price - game.price) / max_price) * rating_price_weight
      -- line 190: divides by `len(self._user_nodes)`
      match self._user_nodes with
      | none => .error .attributeError
      | some us =>
      if us.length = 0 then .error .zeroDivisionError
      else
        let neighbour_score := ((game_node.neighbours.length : ℚ) / (us.length : ℚ)) *
          neighbour_weight
        -- line 191: numerator first, then the division
        match game.genre_count user_genres with
        | .error e => .error e
        | .ok cnt =>
        if user_genres.length = 0 then .error .zeroDivisionError
        else
          let genre_score := ((cnt : ℚ) / (user_genres.length : ℚ)) * genre_weight
          if game.price > self.user_max_price then
            .ok { self with _nodes := some (dictModify ns game_id
              (fun n => { n with game := { n.game with rating := some 0 } })) }
          else if rating_price + neighbour_score + genre_score ≤ 1.0 then
            .ok { self with _nodes := some (dictModify ns game_id
              (fun n => { n with game :=
                { n.game with rating := some (rating_price + neighbour_score + genre_score) } })) }
          else .error .assertionError   -- the assertion of line 197
  else .error .assertionError           -- the assertion of line 182

/-- The loop of `GameGraph.assign_all_scores` over the node keys. -/
def assignLoop (self : GameGraph) (ids : List Int) : Except PyErr GameGraph :=
  match ids with
  | [] => .ok self
  | game_id :: rest =>
    match self.compute_score game_id with
    | .error e => .error e
    | .ok s1 => assignLoop s1 rest

/-- `GameGraph.assign_all_scores`. -/
def GameGraph.assign_all_scores (self : GameGraph) : Except PyErr GameGraph :=
  match self._nodes with
  | none => .error .attributeError
  | some ns => assignLoop self (dictKeys ns)

/-- The loop of `highest_scoring_game`: the running maximum starts at `0`,
the running best at `None`, and the comparison is `>=`, so a later game
displaces an earlier one on an exact tie.  Accessing the
never-initialized `rating` attribute of an unscored game raises
`AttributeError`. -/
def highestLoop (game_list : List Game) (high : ℚ) (best : Option Game) :
    Except PyErr (Option Game) :=
  match game_list with
  | [] => .ok best
  | game :: rest =>
    match game.rating with
    | none => .error .attributeError
    | some r => if r ≥ high then highestLoop rest r (some game) else highestLoop rest high best

/-- `highest_scoring_game` (module-level function). -/
def highest_scoring_game (game_list : List Game) : Except PyErr (Option Game) :=
  highestLoop game_list 0 none

/-- Swap the adjacent entries at positions `i` and `i + 1`. -/
def swapAdj (l : List Game) (i : Nat) : List Game :=
  match l.get? i, l.get? (i + 1) with
  | some a, some b => (l.set i b).set (i + 1) a
  | _, _ => l

/-- The inner loop of `sort_games`: `for index2 in range(index1, 0, -1)`,
comparing `games[index2].rating > games[index2 - 1].rating` and swapping;
the argument is the current value of `index2`, counting down to `1`. -/
def sortInner (l : List Game) (index2 : Nat) : Except PyErr (List Game) :=
  match index2 with
  | 0 => .ok l
  | i + 1 =>
    match l.get? (i + 1), l.get? i with
    | some gj, some gi =>
      match gj.rating, gi.rating with
      | some rj, some ri => sortInner (if rj > ri then swapAdj l i else l) i
      | _, _ => .error .attributeError
    | _, _ => .error .indexError

/-- The outer loop of `sort_games`: `for index1 in range(0, len(games) - 1)`
with `stop = len(games) - 1` fixed at entry. -/
def sortOuter (l : List Game) (index1 stop : Nat) : Except PyErr (List Game) :=
  if h : index1 < stop then
    match l.get? index1, l.get? (index1 + 1) with
    | some g1, some g2 =>
      match g1.rating, g2.rating with
      | some r1, some r2 =>
        if r1 < r2 then
          match sortInner (swapAdj l index1) index1 with
          | .error e => .error e
          | .ok l1 => sortOuter l1 (index1 + 1) stop
        else sortOuter l (index1 + 1) stop
      | _, _ => .error .attributeError
    | _, _ => .error .indexError
  else .ok l
termination_by stop - index1
decreasing_by
  · omega
  · omega

/-- `sort_games` (module-level; returns the list the source sorts in
place). -/
def sort_games (games : List Game) : Except PyErr (List Game) :=
  sortOuter games 0 (games.length - 1)

/-- The `while` loop of `GameGraph.top_games`.  Its guard is
`len(actual) != total or len(possible) == 0`, so the body runs again when
the pool is exhausted; `highest_scoring_game` then returns `None` and
`possible_suggestions.remove(None)` raises `KeyError`. -/
def topGamesLoop (total : Nat) (poss actual : List Game) : Except PyErr (List Game) :=
  if actual.length ≠ total ∨ poss.length = 0 then
    match highest_scoring_game poss with
    | .error e => .error e
    | .ok none => .error .keyError      -- `possible_suggestions.remove(None)`
    | .ok (some game) =>
      if h : game ∈ poss then topGamesLoop total (poss.erase game) (actual ++ [game])
      else .error .keyError             -- `remove` of a missing element
  else .ok actual
termination_by poss.length
decreasing_by
  have := List.length_erase_of_mem h
  have := List.length_pos.mpr (List.ne_nil_of_mem h)
  omega

/-- `GameGraph.top_games`.  The pool is the set of the node objects' games
(one per dict entry), modelled as the list of stored games in key order. -/
def GameGraph.top_games (self : GameGraph) (total : Nat) : Except PyErr (List Game) :=
  match self._nodes with
  | none => .error .attributeError
  | some ns =>
    match topGamesLoop total (ns.map (fun kv => kv.2.game)) [] with
    | .error e => .error e
    | .ok actual_suggestions => sort_games actual_suggestions

/-- Adding one anchor node's neighbours to the candidate pool of
`highest_scoring_games`.  The source's guard
`if neighbour not in possible_suggestions` compares a *node* against a set
of *games*, hence is always true; the set itself deduplicates the added
games by object identity, i.e. by neighbour node id — `seen` tracks the
ids already added. -/
def poolAddNeighbours (ns : NodeDict) (nbs : List Int) (seen : List Int) (acc : List Game) :
    Except PyErr (List Int × List Game) :=
  match nbs with
  | [] => .ok (seen, acc)
  | nb :: rest =>
    if nb ∈ seen then poolAddNeighbours ns rest seen acc
    else
      match dictGet ns nb with
      | none => .error .keyError        -- arena-resolution miss (module comment)
      | some node => poolAddNeighbours ns rest (seen ++ [nb]) (acc ++ [node.game])

/-- The pool-building loop of `highest_scoring_games`, over the anchors. -/
def poolLoop (ns : NodeDict) (usIter : List Int) (seen : List Int) (acc : List Game) :
    Except PyErr (List Int × List Game) :=
  match usIter with
  | [] => .ok (seen, acc)
  | game_id :: rest =>
    match dictGet ns game_id with
    | none => .error .keyError          -- arena-resolution miss (module comment)
    | some node =>
      match poolAddNeighbours ns node.neighbours seen acc with
      | .error e => .error e
      | .ok (seen1, acc1) => poolLoop ns rest seen1 acc1

/-- The `while` loop of `GameGraph.highest_scoring_games`; its guard is
`possible_suggestions != set() or len(actual_suggestions) == total_games`. -/
def hsgLoop (total : Nat) (poss actual : List Game) : Except PyErr (List Game) :=
  if poss.length ≠ 0 ∨ actual.length = total then
    match highest_scoring_game poss with
    | .error e => .error e
    | .ok none => .error .keyError
    | .ok (some game) =>
      if h : game ∈ poss then hsgLoop total (poss.erase game) (actual ++ [game])
      else .error .keyError
  else .ok actual
termination_by poss.length
decreasing_by
  have := List.length_erase_of_mem h
  have := List.length_pos.mpr (List.ne_nil_of_mem h)
  omega

/-- `GameGraph.highest_scoring_games`: ranking over the anchors' neighbour
pool, falling back to `top_games` when that pool is empty. -/
def GameGraph.highest_scoring_games (self : GameGraph) (total_games : Nat) :
    Except PyErr (List Game) :=
  match self._user_nodes with
  | none => .error .attributeError
  | some us =>
    match us with
    | [] => self.top_games total_games  -- empty pool loop, empty pool
    | _ :: _ =>
      match self._nodes with
      | none => .error .attributeError  -- arena resolution (module comment)
      | some ns =>
        match poolLoop ns us [] [] with
        | .error e => .error e
        | .ok (_, possible_suggestions) =>
          if possible_suggestions ≠ [] then
            match hsgLoop total_games possible_suggestions [] with
            | .error e => .error e
            | .ok actual => sort_games actual
          else self.top_games total_games

/-! Derived notions used to state the claims. -/

/-- The rating of a game, read with default `0` (used only to state maxima
and orderings; the theorems that use it carry the hypothesis that the
rating is actually set). -/
def ratingD (g : Game) : ℚ := g.rating.getD 0

/-- Every game in the list has its `rating` attribute set, to a value
`≥ 0`. -/
def ScoredNonneg (l : List Game) : Prop :=
  ∀ g ∈ l, g.rating.isSome ∧ 0 ≤ ratingD g

instance (l : List Game) : Decidable (ScoredNonneg l) :=
  inferInstanceAs (Decidable (∀ g ∈ l, g.rating.isSome ∧ 0 ≤ ratingD g))

/-- Ratings are non-increasing from the head of the list to its tail. -/
def NonIncr (l : List Game) : Prop :=
  l.Pairwise (fun a b => ratingD b ≤ ratingD a)

instance (l : List Game) : Decidable (NonIncr l) :=
  inferInstanceAs (Decidable (l.Pairwise _))

/-- The pure value of the `highest_scoring_game` loop on a fully scored
list (reference function for the proofs). -/
def pickLast (l : List Game) (high : ℚ) (best : Option Game) : Option Game :=
  match l with
  | [] => best
  | g :: rest =>
    if ratingD g ≥ high then pickLast rest (ratingD g) (some g) else pickLast rest high best

/-- Total number of neighbour-list entries across the graph (each stored
edge contributes two). -/
def totalNb (ns : NodeDict) : Nat :=
  (ns.map (fun kv => kv.2.neighbours.length)).sum

/-- The number of ordered `(anchor, other)` pairs with distinct ids that
one pass of `add_all_edges` turns into an `add_edge` call. -/
def pairCount (us : List Int) (keys : List Int) : Nat :=
  (us.map (fun u => (keys.filter (fun o => u ≠ o)).length)).sum

/-! Concrete fixtures (catalog records and graph states) used by the
claim-level theorems and witnesses. -/

/-- An affordable, owned catalog record. -/
def alphaGame : Game :=
  { name := "alpha", game_id := 1, genres := ["RPG"], price := 10,
    positive_ratio := 80, rating := none }

/-- A record priced above the 50-unit budget used in the fixtures. -/
def betaGame : Game :=
  { name := "beta", game_id := 2, genres := ["RPG"], price := 60,
    positive_ratio := 90, rating := none }

/-- A zero-priced record (for the `max_price() == 0` degenerate case). -/
def freeGame : Game :=
  { name := "free", game_id := 1, genres := ["RPG"], price := 0,
    positive_ratio := 80, rating := none }

/-- A record with an empty genre list. -/
def plainGame : Game :=
  { name := "plain", game_id := 1, genres := [], price := 10,
    positive_ratio := 80, rating := none }

/-- `alphaGame` with a score attached. -/
def scoredA : Game := { alphaGame with rating := some (1 / 2) }

/-- `betaGame` with a score attached (tied with `scoredA`). -/
def scoredB : Game := { betaGame with rating := some (1 / 2) }

/-- A third scored record, strictly above the tie. -/
def scoredC : Game :=
  { name := "gamma", game_id := 3, genres := ["RPG"], price := 20,
    positive_ratio := 70, rating := some (3 / 4) }

/-- Graph with one anchor (id 1) and one non-anchor (id 2), budget 50. -/
def grPrice : GameGraph :=
  { user_game_ids := [1], user_game_genres := ["RPG"], user_max_price := 50,
    _nodes := some [(1, GameNode.init alphaGame), (2, GameNode.init betaGame)],
    _user_nodes := some [1] }

/-- Node dictionary of three scored games. -/
def nsRank : NodeDict :=
  [(1, ⟨scoredA, []⟩), (2, ⟨scoredB, []⟩), (3, ⟨scoredC, []⟩)]

/-- Anchorless graph over `nsRank` (candidates for catalog-wide ranking). -/
def grRank : GameGraph :=
  { user_game_ids := [], user_game_genres := [], user_max_price := 50,
    _nodes := some nsRank, _user_nodes := some [] }

/-- Anchorless two-game graph whose games' scores tie exactly. -/
def grTie : GameGraph :=
  { user_game_ids := [], user_game_genres := [], user_max_price := 50,
    _nodes := some [(1, ⟨scoredA, []⟩), (2, ⟨scoredB, []⟩)], _user_nodes := some [] }

/-- Node dictionary in which both games are anchors. -/
def nsBoth : NodeDict :=
  [(1, GameNode.init alphaGame), (2, GameNode.init betaGame)]

/-- Graph in which every node is an anchor (so `add_all_edges` succeeds). -/
def grBoth : GameGraph :=
  { user_game_ids := [], user_game_genres := [], user_max_price := 50,
    _nodes := some nsBoth, _user_nodes := some [1, 2] }

/-- Adjacency of `grBoth` after one `add_all_edges` call. -/
def grBoth1 : GameGraph :=
  { grBoth with _nodes := some [(1, ⟨alphaGame, [2, 2]⟩), (2, ⟨betaGame, [1, 1]⟩)] }

/-- Adjacency of `grBoth` after two `add_all_edges` calls. -/
def grBoth2 : GameGraph :=
  { grBoth with
    _nodes := some [(1, ⟨alphaGame, [2, 2, 2, 2]⟩), (2, ⟨betaGame, [1, 1, 1, 1]⟩)] }

/-- Graph with zero anchors (the `len(self._user_nodes) == 0` case). -/
def grNoAnchor : GameGraph :=
  { user_game_ids := [], user_game_genres := ["RPG"], user_max_price := 50,
    _nodes := some [(1, GameNode.init alphaGame)], _user_nodes := some [] }

/-- Graph whose whole catalog is free (`max_price() == 0`). -/
def grFreeCatalog : GameGraph :=
  { user_game_ids := [], user_game_genres := ["RPG"], user_max_price := 0,
    _nodes := some [(1, GameNode.init freeGame)], _user_nodes := some [1] }

/-- Single-game catalog with one anchor and a preferred genre. -/
def grSingle : GameGraph :=
  { user_game_ids := [], user_game_genres := ["RPG"], user_max_price := 50,
    _nodes := some [(1, GameNode.init alphaGame)], _user_nodes := some [1] }

/-- Graph whose effective preferred-genre set is empty (no configured
genres, and the only anchor's game has no genres). -/
def grNoGenres : GameGraph :=
  { user_game_ids := [], user_game_genres := [], user_max_price := 50,
    _nodes := some [(1, GameNode.init plainGame)], _user_nodes := some [1] }

/-- Anchorless single-game graph with a scored game (empty neighbour
pool; the fallback path of `highest_scoring_games`). -/
def grFallback : GameGraph :=
  { user_game_ids := [], user_game_genres := [], user_max_price := 50,
    _nodes := some [(1, ⟨scoredA, []⟩)], _user_nodes := some [] }

/-- A record sharing id 1 with `alphaGame` but otherwise different. -/
def dupGame : Game :=
  { name := "delta", game_id := 1, genres := ["Action"], price := 30,
    positive_ratio := 40, rating := none }

/-- Graph already containing id 1 (for the duplicate-insertion claim). -/
def grDup : GameGraph :=
  { user_game_ids := [5], user_game_genres := [], user_max_price := 50,
    _nodes := some [(1, GameNode.init alphaGame)], _user_nodes := some [] }

/-- `grDup` after `add_game(dupGame)`: the node at key 1 is silently
replaced and the anchor mapping is untouched. -/
def grDupAfter : GameGraph :=
  { grDup with _nodes := some [(1, GameNode.init dupGame)] }

/-- Graph whose user owns id 1, before inserting `alphaGame` (id 1). -/
def grOwn : GameGraph :=
  { user_game_ids := [1], user_game_genres := [], user_max_price := 50,
    _nodes := some [], _user_nodes := some [] }

/-! Lemmas about `highest_scoring_game`. -/

theorem highestLoop_eq_pickLast : ∀ (l : List Game) (high : ℚ) (best : Option Game),
    (∀ g ∈ l, g.rating.isSome) → highestLoop l high best = .ok (pickLast l high best) := by
  intro l
  induction l with
  | nil => intro high best _; rfl
  | cons g rest ih =>
    intro high best hsome
    obtain ⟨r, hr⟩ := Option.isSome_iff_exists.mp (hsome g (by simp))
    have hrest : ∀ x ∈ rest, x.rating.isSome := fun x hx => hsome x (by simp [hx])
    by_cases hge : r ≥ high
    · simp [highestLoop, pickLast, hr, ratingD, hge, ih r (some g) hrest]
    · simp [highestLoop, pickLast, hr, ratingD, hge, ih high best hrest]

theorem pickLast_spec : ∀ (l : List Game) (high : ℚ) (best : Option Game) (w : Game),
    (∀ b, best = some b → high = ratingD b) → pickLast l high best = some w →
    (best = some w ∨ w ∈ l) ∧ high ≤ ratingD w ∧ ∀ g ∈ l, ratingD g ≤ ratingD w := by
  intro l
  induction l with
  | nil =>
    intro high best w hinv hw
    simp [pickLast] at hw
    subst hw
    exact ⟨Or.inl rfl, le_of_eq (hinv w rfl), by simp⟩
  | cons g rest ih =>
    intro high best w hinv hw
    by_cases hge : ratingD g ≥ high
    · simp [pickLast, hge] at hw
      obtain ⟨hmem, hhigh, hall⟩ :=
        ih (ratingD g) (some g) w (by intro b hb; cases hb; rfl) hw
      refine ⟨?_, le_trans hge hhigh, ?_⟩
      · rcases hmem with h | h
        · exact Or.inr (by simp [Option.some_inj.mp h.symm])
        · exact Or.inr (by simp [h])
      · intro x hx
        rcases List.mem_cons.mp hx with h | h
        · subst h; exact hhigh
        · exact hall x h
    · simp [pickLast, hge] at hw
      obtain ⟨hmem, hhigh, hall⟩ := ih high best w hinv hw
      refine ⟨?_, hhigh, ?_⟩
      · rcases hmem with h | h
        · exact Or.inl h
        · exact Or.inr (by simp [h])
      · intro x hx
        rcases List.mem_cons.mp hx with h | h
        · subst h; exact le_trans (le_of_not_le hge) hhigh
        · exact hall x h

theorem pickLast_some_of_some : ∀ (l : List Game) (high : ℚ) (b : Game),
    ∃ w, pickLast l high (some b) = some w := by
  intro l
  induction l with
  | nil => intro high b; exact ⟨b, rfl⟩
  | cons g rest ih =>
    intro high b
    by_cases hge : ratingD g ≥ high
    · simpa [pickLast, hge] using ih (ratingD g) g
    · simpa [pickLast, hge] using ih high b

theorem pickLast_isSome : ∀ (l : List Game), (∀ g ∈ l, 0 ≤ ratingD g) → l ≠ [] →
    ∃ w, pickLast l 0 none = some w := by
  intro l hnn hne
  match l with
  | g :: rest =>
    have hge : ratingD g ≥ 0 := hnn g (by simp)
    simpa [pickLast, hge] using pickLast_some_of_some rest (ratingD g) g

/-! Lemmas about the selection loop of `top_games`. -/

theorem topGamesLoop_ok : ∀ (n : Nat) (poss actual : List Game) (total : Nat),
    poss.length = n → ScoredNonneg poss → actual.length ≤ total →
    total - actual.length < poss.length →
    ∃ sel, topGamesLoop total poss actual = .ok (actual ++ sel) ∧
      sel.length = total - actual.length ∧ (∀ x ∈ sel, x ∈ poss) ∧ NonIncr sel := by
  intro n
  induction n using Nat.strong_induction_on with
  | _ n ih =>
    intro poss actual total hn hsn hle hlt
    by_cases heq : actual.length = total
    · refine ⟨[], ?_, by rw [heq]; simp, by simp, List.Pairwise.nil⟩
      have hcond : ¬(actual.length ≠ total ∨ poss.length = 0) := by
        push_neg
        exact ⟨heq, by omega⟩
      rw [topGamesLoop, if_neg hcond]
      simp
    · have hne : poss ≠ [] := by
        intro h
        subst h
        simp at hlt
      have hsome : ∀ g ∈ poss, g.rating.isSome := fun g hg => (hsn g hg).1
      have hnn : ∀ g ∈ poss, 0 ≤ ratingD g := fun g hg => (hsn g hg).2
      obtain ⟨w, hw⟩ := pickLast_isSome poss hnn hne
      obtain ⟨hmem0, _, hmax⟩ := pickLast_spec poss 0 none w (by intro b hb; cases hb) hw
      have hwmem : w ∈ poss := by
        rcases hmem0 with h | h
        · cases h
        · exact h
      have hkey : highest_scoring_game poss = .ok (some w) := by
        rw [highest_scoring_game, highestLoop_eq_pickLast poss 0 none hsome, hw]
      have hlen : (poss.erase w).length = poss.length - 1 := List.length_erase_of_mem hwmem
      have hplen : 1 ≤ poss.length := by
        cases poss
        · simp at hwmem
        · simp
      obtain ⟨sel1, hloop1, hlen1, hmem1, hni1⟩ :=
        ih (poss.length - 1) (by omega) (poss.erase w) (actual ++ [w]) total (by omega)
          (fun x hx => hsn x (List.mem_of_mem_erase hx))
          (by simp only [List.length_append, List.length_singleton]; omega)
          (by simp only [List.length_append, List.length_singleton]; omega)
      refine ⟨w :: sel1, ?_, ?_, ?_, ?_⟩
      · rw [topGamesLoop, if_pos (Or.inl heq)]
        simp only [hkey]
        rw [dif_pos hwmem]
        rw [hloop1]
        simp
      · simp only [List.length_cons]
        simp only [List.length_append, List.length_singleton] at hlen1
        omega
      · intro x hx
        rcases List.mem_cons.mp hx with h | h
        · subst h; exact hwmem
        · exact List.mem_of_mem_erase (hmem1 x h)
      · rw [NonIncr, List.pairwise_cons]
        exact ⟨fun b hb => hmax b (List.mem_of_mem_erase (hmem1 b hb)), hni1⟩

theorem topGamesLoop_err : ∀ (n : Nat) (poss actual : List Game) (total : Nat),
    poss.length = n → ScoredNonneg poss →
    poss.length ≤ total - actual.length ∨ total < actual.length →
    topGamesLoop total poss actual = .error .keyError := by
  intro n
  induction n using Nat.strong_induction_on with
  | _ n ih =>
    intro poss actual total hn hsn hcase
    match poss, hn with
    | [], hn =>
      rw [topGamesLoop]
      simp [highest_scoring_game, highestLoop]
    | g :: rest, hn =>
      have hplen : (g :: rest).length = rest.length + 1 := rfl
      have hneq : actual.length ≠ total := by
        rcases hcase with h | h
        · rw [hplen] at h; omega
        · omega
      have hsome : ∀ x ∈ g :: rest, x.rating.isSome := fun x hx => (hsn x hx).1
      have hnn : ∀ x ∈ g :: rest, 0 ≤ ratingD x := fun x hx => (hsn x hx).2
      obtain ⟨w, hw⟩ := pickLast_isSome (g :: rest) hnn (by simp)
      obtain ⟨hmem0, _, _⟩ := pickLast_spec (g :: rest) 0 none w (by intro b hb; cases hb) hw
      have hwmem : w ∈ g :: rest := by
        rcases hmem0 with h | h
        · cases h
        · exact h
      have hkey : highest_scoring_game (g :: rest) = .ok (some w) := by
        rw [highest_scoring_game, highestLoop_eq_pickLast (g :: rest) 0 none hsome, hw]
      have hlen : ((g :: rest).erase w).length = (g :: rest).length - 1 :=
        List.length_erase_of_mem hwmem
      rw [topGamesLoop, if_pos (Or.inl hneq)]
      simp only [hkey]
      rw [dif_pos hwmem]
      refine ih ((g :: rest).length - 1) (by rw [hplen] at hn ⊢; omega) _ _ total hlen
        (fun x hx => hsn x (List.mem_of_mem_erase hx)) ?_
      rcases hcase with h | h
      · left
        simp only [List.length_append, List.length_singleton]
        rw [hlen, hplen] at *
        omega
      · right
        simp only [List.length_append, List.length_singleton]
        omega

/-! Lemmas about `sort_games`. -/

theorem sortOuter_id : ∀ (gap index1 stop : Nat) (l : List Game),
    stop - index1 = gap → stop < l.length →
    (∀ g ∈ l, g.rating.isSome) → NonIncr l →
    sortOuter l index1 stop = .ok l := by
  intro gap
  induction gap with
  | zero =>
    intro index1 stop l hg hlt _ _
    rw [sortOuter]
    have h : ¬ index1 < stop := by omega
    simp [h]
  | succ k ihg =>
    intro index1 stop l hg hlt hsome hni
    have hi : index1 < stop := by omega
    have h1 : index1 < l.length := by omega
    have h2 : index1 + 1 < l.length := by omega
    have hget1 : l.get? index1 = some (l.get ⟨index1, h1⟩) := List.get?_eq_get h1
    have hget2 : l.get? (index1 + 1) = some (l.get ⟨index1 + 1, h2⟩) := List.get?_eq_get h2
    obtain ⟨r1, hr1⟩ := Option.isSome_iff_exists.mp (hsome _ (l.get_mem index1 h1))
    obtain ⟨r2, hr2⟩ := Option.isSome_iff_exists.mp (hsome _ (l.get_mem (index1 + 1) h2))
    have hle : ratingD (l.get ⟨index1 + 1, h2⟩) ≤ ratingD (l.get ⟨index1, h1⟩) :=
      List.pairwise_iff_get.mp hni ⟨index1, h1⟩ ⟨index1 + 1, h2⟩ (by simp)
    rw [ratingD, ratingD, hr1, hr2] at hle
    simp only [Option.getD_some] at hle
    rw [sortOuter, dif_pos hi, hget1, hget2]
    simp only [hr1, hr2]
    rw [if_neg (not_lt.mpr hle)]
    exact ihg (index1 + 1) stop l (by omega) hlt hsome hni

theorem sort_games_sorted : ∀ (l : List Game),
    (∀ g ∈ l, g.rating.isSome) → NonIncr l → sort_games l = .ok l := by
  intro l hsome hni
  match l with
  | [] =>
    rw [sort_games, sortOuter]
    simp
  | g :: rest =>
    rw [sort_games]
    refine sortOuter_id ((g :: rest).length - 1) 0 ((g :: rest).length - 1) (g :: rest)
      (by omega) ?_ hsome hni
    simp

/-! `top_games` packaged: success and exhaustion-error cases. -/

theorem top_games_ok : ∀ (g : GameGraph) (ns : NodeDict) (total : Nat),
    g._nodes = some ns → ScoredNonneg (ns.map (fun kv => kv.2.game)) →
    total < ns.length →
    ∃ res, g.top_games total = .ok res ∧ res.length = total ∧ NonIncr res ∧
      ∀ x ∈ res, x ∈ ns.map (fun kv => kv.2.game) := by
  intro g ns total hn hsn hlt
  obtain ⟨sel, hloop, hlen, hmem, hni⟩ :=
    topGamesLoop_ok (ns.map (fun kv => kv.2.game)).length (ns.map (fun kv => kv.2.game)) []
      total rfl hsn (by simp) (by simp; omega)
  refine ⟨sel, ?_, by simpa using hlen, hni, hmem⟩
  rw [GameGraph.top_games, hn]
  simp only [hloop, List.nil_append]
  exact sort_games_sorted sel (fun x hx => (hsn x (hmem x hx)).1) hni

theorem top_games_err : ∀ (g : GameGraph) (ns : NodeDict) (total : Nat),
    g._nodes = some ns → ScoredNonneg (ns.map (fun kv => kv.2.game)) →
    ns.length ≤ total →
    g.top_games total = .error .keyError := by
  intro g ns total hn hsn hle
  rw [GameGraph.top_games, hn]
  simp only [topGamesLoop_err (ns.map (fun kv => kv.2.game)).length
    (ns.map (fun kv => kv.2.game)) [] total rfl hsn (by simp; omega)]

/-! Dictionary lemmas. -/

theorem pyStrInIntList_eq_false (s : String) (xs : List Int) :
    pyStrInIntList s xs = false := by
  simp [pyStrInIntList, pyStrEqInt]

theorem dictGet_some_of_mem : ∀ (d : NodeDict) (k : Int), k ∈ dictKeys d →
    ∃ v, dictGet d k = some v := by
  intro d
  induction d with
  | nil => intro k hk; simp [dictKeys] at hk
  | cons kv rest ih =>
    intro k hk
    obtain ⟨k1, v1⟩ := kv
    by_cases h : k1 = k
    · exact ⟨v1, by simp [dictGet, h]⟩
    · have hk1 : k ∈ dictKeys rest := by
        simp [dictKeys] at hk
        rcases hk with h1 | h1
        · exact absurd h1.symm h
        · simpa [dictKeys] using h1
      obtain ⟨v, hv⟩ := ih k hk1
      exact ⟨v, by simp [dictGet, h, hv]⟩

theorem dictKeys_dictSet_mem : ∀ (d : NodeDict) (k : Int) (v : GameNode),
    k ∈ dictKeys d → dictKeys (dictSet d k v) = dictKeys d := by
  intro d
  induction d with
  | nil => intro k v hk; simp [dictKeys] at hk
  | cons kv rest ih =>
    intro k v hk
    obtain ⟨k1, v1⟩ := kv
    by_cases h : k1 = k
    · simp [dictSet, h, dictKeys]
    · have hk1 : k ∈ dictKeys rest := by
        simp [dictKeys] at hk
        rcases hk with h1 | h1
        · exact absurd h1.symm h
        · simpa [dictKeys] using h1
      simp [dictSet, h, dictKeys]
      simpa [dictKeys] using ih k v hk1

theorem dictGet_dictSet : ∀ (d : NodeDict) (k : Int) (v : GameNode),
    dictGet (dictSet d k v) k = some v := by
  intro d
  induction d with
  | nil => intro k v; simp [dictSet, dictGet]
  | cons kv rest ih =>
    intro k v
    obtain ⟨k1, v1⟩ := kv
    by_cases h : k1 = k
    · simp [dictSet, h, dictGet]
    · simp [dictSet, h, dictGet, ih k v]

theorem dictKeys_dictModify : ∀ (d : NodeDict) (k : Int) (f : GameNode → GameNode),
    dictKeys (dictModify d k f) = dictKeys d := by
  intro d k f
  induction d with
  | nil => rfl
  | cons kv rest ih =>
    obtain ⟨k1, v1⟩ := kv
    by_cases h : k1 = k
    · simp [dictModify, h, dictKeys]
    · simp [dictModify, h, dictKeys]
      simpa [dictKeys] using ih

theorem totalNb_dictModify_append : ∀ (d : NodeDict) (k : Int) (x : Int),
    k ∈ dictKeys d →
    totalNb (dictModify d k (fun n => { n with neighbours := n.neighbours ++ [x] })) =
      totalNb d + 1 := by
  intro d k x
  induction d with
  | nil => intro hk; simp [dictKeys] at hk
  | cons kv rest ih =>
    intro hk
    obtain ⟨k1, v1⟩ := kv
    by_cases h : k1 = k
    · simp [dictModify, h, totalNb]
      omega
    · have hk1 : k ∈ dictKeys rest := by
        simp [dictKeys] at hk
        rcases hk with h1 | h1
        · exact absurd h1.symm h
        · simpa [dictKeys] using h1
      have := ih hk1
      simp [dictModify, h, totalNb] at this ⊢
      omega

/-! Lemmas about `add_edge` and the `add_all_edges` loops. -/

theorem dictKeys_add_edge (ns : NodeDict) (a b : Int) :
    dictKeys (add_edge ns a b) = dictKeys ns := by
  rw [add_edge, dictKeys_dictModify, dictKeys_dictModify]

theorem totalNb_add_edge (ns : NodeDict) (a b : Int)
    (ha : a ∈ dictKeys ns) (hb : b ∈ dictKeys ns) :
    totalNb (add_edge ns a b) = totalNb ns + 2 := by
  rw [add_edge]
  rw [totalNb_dictModify_append _ b a (by rwa [dictKeys_dictModify])]
  rw [totalNb_dictModify_append _ a b ha]

theorem addEdgesInner_ok : ∀ (others us : List Int) (user_id : Int) (ns : NodeDict),
    user_id ∈ us → user_id ∈ dictKeys ns →
    (∀ o ∈ others, o ∈ us ∧ o ∈ dictKeys ns) →
    ∃ ns1, addEdgesInner us user_id others ns = .ok ns1 ∧
      dictKeys ns1 = dictKeys ns ∧
      totalNb ns1 = totalNb ns + 2 * (others.filter (fun o => user_id ≠ o)).length := by
  intro others
  induction others with
  | nil => intro us user_id ns _ _ _; exact ⟨ns, rfl, rfl, by simp⟩
  | cons o rest ih =>
    intro us user_id ns hu hukeys hother
    obtain ⟨hous, hokeys⟩ := hother o (by simp)
    obtain ⟨ndu, hndu⟩ := dictGet_some_of_mem ns user_id hukeys
    obtain ⟨ndo, hndo⟩ := dictGet_some_of_mem ns o hokeys
    have hg1 : userNodesGet ns us user_id = .ok ndu := by
      rw [userNodesGet, if_pos hu, hndu]
    have hg2 : userNodesGet ns us o = .ok ndo := by
      rw [userNodesGet, if_pos hous, hndo]
    by_cases hne : user_id ≠ o
    · have hkeys1 : dictKeys (add_edge ns o user_id) = dictKeys ns := dictKeys_add_edge ns o user_id
      obtain ⟨ns1, hrec, hkeys, htot⟩ :=
        ih us user_id (add_edge ns o user_id) hu (by rwa [hkeys1])
          (fun x hx => by rw [hkeys1]; exact hother x (by simp [hx]))
      refine ⟨ns1, ?_, by rw [hkeys, hkeys1], ?_⟩
      · rw [addEdgesInner, hg1, hg2]
        rw [if_pos hne]
        exact hrec
      · rw [htot, totalNb_add_edge ns o user_id hokeys hukeys]
        have : (o :: rest).filter (fun x => decide (user_id ≠ x)) =
            o :: rest.filter (fun x => decide (user_id ≠ x)) := by
          simp [List.filter_cons, hne]
        rw [this]
        simp
        omega
    · push_neg at hne
      obtain ⟨ns1, hrec, hkeys, htot⟩ := ih us user_id ns hu hukeys
        (fun x hx => hother x (by simp [hx]))
      refine ⟨ns1, ?_, hkeys, ?_⟩
      · rw [addEdgesInner, hg1, hg2]
        rw [if_neg (not_not_intro hne)]
        exact hrec
      · rw [htot]
        have : (o :: rest).filter (fun x => decide (user_id ≠ x)) =
            rest.filter (fun x => decide (user_id ≠ x)) := by
          simp [List.filter_cons, hne]
        rw [this]

theorem addEdgesOuter_ok : ∀ (usIter us : List Int) (ns : NodeDict),
    (∀ u ∈ usIter, u ∈ us ∧ u ∈ dictKeys ns) →
    (∀ o ∈ dictKeys ns, o ∈ us) →
    ∃ ns1, addEdgesOuter us usIter ns = .ok ns1 ∧
      dictKeys ns1 = dictKeys ns ∧
      totalNb ns1 = totalNb ns + 2 * pairCount usIter (dictKeys ns) := by
  intro usIter
  induction usIter with
  | nil => intro us ns _ _; exact ⟨ns, rfl, rfl, by simp [pairCount]⟩
  | cons u rest ih =>
    intro us ns hus hkeys
    obtain ⟨huus, hukeys⟩ := hus u (by simp)
    obtain ⟨ns1, hinner, hkeys1, htot1⟩ :=
      addEdgesInner_ok (dictKeys ns) us u ns huus hukeys
        (fun o ho => ⟨hkeys o ho, ho⟩)
    obtain ⟨ns2, houter, hkeys2, htot2⟩ :=
      ih us ns1 (fun x hx => by rw [hkeys1]; exact hus x (by simp [hx]))
        (fun o ho => hkeys o (by rwa [hkeys1] at ho))
    refine ⟨ns2, ?_, by rw [hkeys2, hkeys1], ?_⟩
    · rw [addEdgesOuter, hinner]
      exact houter
    · rw [htot2, hkeys1, htot1]
      simp [pairCount]
      ring

/-- Packaged success case of `add_all_edges`, with the neighbour-entry
count it adds. -/
theorem add_all_edges_ok : ∀ (g : GameGraph) (us : List Int) (ns : NodeDict),
    g._user_nodes = some us → g._nodes = some ns → us ≠ [] →
    (∀ u ∈ us, u ∈ dictKeys ns) → (∀ o ∈ dictKeys ns, o ∈ us) →
    ∃ ns1, g.add_all_edges = .ok { g with _nodes := some ns1 } ∧
      dictKeys ns1 = dictKeys ns ∧
      totalNb ns1 = totalNb ns + 2 * pairCount us (dictKeys ns) := by
  intro g us ns hu hn hne hus hkeys
  obtain ⟨ns1, houter, hkeys1, htot1⟩ :=
    addEdgesOuter_ok us us ns (fun x hx => ⟨hx, hus x hx⟩) hkeys
  refine ⟨ns1, ?_, hkeys1, htot1⟩
  rw [GameGraph.add_all_edges, hu]
  match us, hne with
  | u :: rest, _ =>
    rw [hn]
    simp only [houter]

/-! Lemma about the candidate pool of `highest_scoring_games`. -/

theorem poolLoop_nil_neighbours : ∀ (usIter : List Int) (ns : NodeDict)
    (seen : List Int) (acc : List Game),
    (∀ u ∈ usIter, ∃ node, dictGet ns u = some node ∧ node.neighbours = []) →
    poolLoop ns usIter seen acc = .ok (seen, acc) := by
  intro usIter
  induction usIter with
  | nil => intro ns seen acc _; rfl
  | cons u rest ih =>
    intro ns seen acc hres
    obtain ⟨node, hget, hnb⟩ := hres u (by simp)
    rw [poolLoop]
    simp only [hget, hnb, poolAddNeighbours]
    exact ih ns seen acc (fun x hx => hres x (by simp [hx]))

/-- When every anchor has an empty neighbour list, the candidate pool of
`highest_scoring_games` is empty and the call delegates to `top_games`. -/
theorem highest_scoring_games_empty_pool : ∀ (g : GameGraph) (us : List Int)
    (ns : NodeDict) (n : Nat),
    g._user_nodes = some us → g._nodes = some ns →
    (∀ u ∈ us, ∃ node, dictGet ns u = some node ∧ node.neighbours = []) →
    g.highest_scoring_games n = g.top_games n := by
  intro g us ns n hu hn hres
  rw [GameGraph.highest_scoring_games, hu]
  cases us with
  | nil => rfl
  | cons u rest =>
    rw [hn]
    simp only [poolLoop_nil_neighbours (u :: rest) ns [] [] hres]
    simp

/-! Claim-level theorems.

Batteries marks `Rat` arithmetic `@[irreducible]`; the closed evaluations
below restore the default transparency locally so that `rfl` / `decide`
can run the embedded code on the concrete fixtures. -/

set_option allowUnsafeReducibility true
attribute [local semireducible] Rat.add Rat.mul Rat.sub Rat.div Rat.inv Rat.ofScientific

/-- C1 (code_bug evidence): the price-ceiling rule never fires.  In
`grPrice`, game 2 costs 60 against a budget of 50, yet `compute_score`
raises `TypeError` (from `genre_count`, whose last line is `len(list)`)
before reaching the disqualification branch, so the game's score is never
set to `0.0`; `assign_all_scores` on the same graph raises as well, so no
post-scoring state exists at all. -/
theorem compute_score_overpriced_raises :
    grPrice.compute_score 2 = .error .typeError ∧
    grPrice.assign_all_scores = .error .typeError ∧
    betaGame.price > grPrice.user_max_price :=
  ⟨by rfl, by rfl, by decide⟩

/-- C2 (code_bug evidence): no game is ever "scored".  Game 1 of `grPrice`
is affordable (10 against a budget of 50) and every denominator is
non-zero, yet `compute_score` raises `TypeError` from `genre_count` before
either assignment to `game.rating`, so the claim's population of scored
games is empty: the code never completes a scoring, let alone establishes
the `[0, 1]` range. -/
theorem compute_score_affordable_raises :
    grPrice.compute_score 1 = .error .typeError ∧
    alphaGame.price ≤ grPrice.user_max_price :=
  ⟨by rfl, by decide⟩

/-- C4 (code_bug evidence): `add_all_edges` looks non-anchor ids up in the
anchor dictionary (`other_node = self._user_nodes[other_id]` with
`other_id` drawn from `self._nodes`), so on `grPrice` — one anchor (id 1)
and one other node (id 2) — it raises `KeyError` instead of creating the
anchor-to-other edge. -/
theorem add_all_edges_nonanchor_keyError :
    grPrice.add_all_edges = .error .keyError := by rfl

/-- C6 (code_bug evidence): every degenerate input raises during scoring.
Zero anchors hit the unguarded division by `len(self._user_nodes)`
(`ZeroDivisionError`); a catalog whose maximum price is 0 hits the division
by `max_price` (`ZeroDivisionError`); a single-game catalog — and likewise
an empty effective preferred-genre set — reaches `genre_count`, which
raises `TypeError` on every input.  No `0.0` guard exists anywhere in
`compute_score`. -/
theorem assign_all_scores_degenerate_raises :
    grNoAnchor.assign_all_scores = .error .zeroDivisionError ∧
    grFreeCatalog.assign_all_scores = .error .zeroDivisionError ∧
    grSingle.assign_all_scores = .error .typeError ∧
    grNoGenres.assign_all_scores = .error .typeError :=
  ⟨by rfl, by rfl, by rfl, by rfl⟩

/-- C9 (code_bug evidence): anchors are never registered.  `grOwn`'s user
owns id 1 and `alphaGame` has id 1, yet after `add_game` the `_user_nodes`
mapping is still empty (the result's `_user_nodes` is inherited unchanged),
because the source tests `game.name.lower() in self.user_game_ids` — a
string against a list of ints — which is always false. -/
theorem add_game_never_registers_anchor :
    grOwn.add_game alphaGame =
      .ok { grOwn with _nodes := some [(1, GameNode.init alphaGame)] } ∧
    (1 : Int) ∈ grOwn.user_game_ids ∧ alphaGame.game_id = 1 ∧
    ({ grOwn with _nodes := some [(1, GameNode.init alphaGame)] } : GameGraph)._user_nodes
      = some [] :=
  ⟨by rfl, by decide, by rfl, by rfl⟩

/-- C10 (confirmed): `GameGraph.__init__` stores only the three
user-profile fields and never creates `_nodes` or `_user_nodes`, so on a
freshly constructed graph the first `add_game` — and likewise
`add_all_edges`, `assign_all_scores` and `top_games` — raises
`AttributeError` instead of performing its operation; no node can ever be
inserted through the constructor-then-`add_game` path. -/
theorem init_missing_dicts :
    ∀ (ids : List Int) (genres : List String) (mp : ℚ) (game : Game) (total : Nat),
      (GameGraph.init ids genres mp)._nodes = none ∧
      (GameGraph.init ids genres mp)._user_nodes = none ∧
      (GameGraph.init ids genres mp).add_game game = .error .attributeError ∧
      (GameGraph.init ids genres mp).add_all_edges = .error .attributeError ∧
      (GameGraph.init ids genres mp).assign_all_scores = .error .attributeError ∧
      (GameGraph.init ids genres mp).top_games total = .error .attributeError :=
  fun _ _ _ _ _ => ⟨rfl, rfl, rfl, rfl, rfl, rfl⟩

/-- C3 counterexample: with three scored candidates and `total = 3`,
`top_games` raises `KeyError` instead of returning the three games
(the claimed length is `min(3, 3) = 3`): when the pool empties, the
loop guard `len(actual) != total or len(possible) == 0` is still true,
`highest_scoring_game` returns `None`, and `remove(None)` raises. -/
theorem top_games_exhaustion_keyError :
    grRank.top_games 3 = .error .keyError :=
  top_games_err grRank nsRank 3 rfl (by decide) (by decide)

/-- C3 (amended): on scored candidates with non-negative scores,
`top_games(total)` (i) returns exactly `total` games drawn from the
catalog, in non-increasing score order, when `total <` the number of
candidates; (ii) raises `KeyError` whenever `total ≥` the number of
candidates (exhaustion is an error, `total = 0` included when the catalog
is empty); and (iii) resolves exact ties in favour of the later-encountered
candidate (the source compares with `>=`), not the first-encountered one. -/
theorem top_games_ranking_contract :
    (∀ (g : GameGraph) (ns : NodeDict) (total : Nat),
      g._nodes = some ns → ScoredNonneg (ns.map (fun kv => kv.2.game)) →
      total < ns.length →
      ∃ res, g.top_games total = .ok res ∧ res.length = total ∧ NonIncr res ∧
        ∀ x ∈ res, x ∈ ns.map (fun kv => kv.2.game)) ∧
    (∀ (g : GameGraph) (ns : NodeDict) (total : Nat),
      g._nodes = some ns → ScoredNonneg (ns.map (fun kv => kv.2.game)) →
      ns.length ≤ total →
      g.top_games total = .error .keyError) ∧
    (∀ (g : GameGraph) (ia ib : Int) (a b : Game) (la lb : List Int) (r : ℚ),
      g._nodes = some [(ia, ⟨a, la⟩), (ib, ⟨b, lb⟩)] →
      a ≠ b → a.rating = some r → b.rating = some r → 0 ≤ r →
      g.top_games 1 = .ok [b]) := by
  refine ⟨top_games_ok, top_games_err, ?_⟩
  intro g ia ib a b la lb r hn hne hra hrb hr
  have hsel : highest_scoring_game [a, b] = .ok (some b) := by
    simp [highest_scoring_game, highestLoop, hra, hrb, hr, le_refl]
  have herase : [a, b].erase b = [a] := by
    simp [List.erase_cons, hne]
  have hloop : topGamesLoop 1 [a, b] [] = .ok [b] := by
    rw [topGamesLoop, if_pos (by simp)]
    simp only [hsel]
    rw [dif_pos (show b ∈ [a, b] by simp)]
    rw [herase, topGamesLoop, if_neg (by simp)]
    simp
  rw [GameGraph.top_games, hn]
  simp only [List.map_cons, List.map_nil, hloop]
  rw [sort_games, sortOuter]
  simp

/-- C3 witness: the amended contract exercised on concrete graphs —
`grRank` (three scored games) returns 2 games for `total = 2` and raises
`KeyError` for `total = 5`; `grTie` (two games tied at `1/2`) returns the
later-encountered `scoredB` for `total = 1`. -/
theorem top_games_ranking_contract_witness :
    (∃ res, grRank.top_games 2 = .ok res ∧ res.length = 2 ∧ NonIncr res ∧
      ∀ x ∈ res, x ∈ nsRank.map (fun kv => kv.2.game)) ∧
    grRank.top_games 5 = .error .keyError ∧
    grTie.top_games 1 = .ok [scoredB] := by
  obtain ⟨h1, h2, h3⟩ := top_games_ranking_contract
  exact ⟨h1 grRank nsRank 2 rfl (by decide) (by decide),
         h2 grRank nsRank 5 rfl (by decide) (by decide),
         h3 grTie 1 2 scoredA scoredB [] [] (1 / 2) rfl (by decide) (by rfl) (by rfl)
           (by decide)⟩

/-- C5 counterexample: on `grBoth` (two anchors, both in the catalog, so a
call succeeds) one `add_all_edges` pass already records the 1–2 edge twice
per endpoint, and a second pass appends the same batch again: the
adjacency after two calls differs from the adjacency after one. -/
theorem add_all_edges_twice_differs :
    grBoth.add_all_edges = .ok grBoth1 ∧
    grBoth1.add_all_edges = .ok grBoth2 ∧
    grBoth2 ≠ grBoth1 :=
  ⟨by rfl, by rfl, by decide⟩

/-- C5 (amended): `add_all_edges` never deduplicates.  Whenever a call
succeeds (every node an anchor and every anchor a node — otherwise it
raises, see C4), it appends two neighbour-list entries per ordered
(anchor, other) pair with distinct ids, and a second call appends exactly
the same number again; so calling twice yields the same adjacency as
calling once only in the degenerate case where no pair exists, and
otherwise the adjacencies differ. -/
theorem add_all_edges_not_idempotent :
    ∀ (g : GameGraph) (us : List Int) (ns : NodeDict),
      g._user_nodes = some us → g._nodes = some ns → us ≠ [] →
      (∀ u ∈ us, u ∈ dictKeys ns) → (∀ o ∈ dictKeys ns, o ∈ us) →
      ∃ ns1 ns2,
        g.add_all_edges = .ok { g with _nodes := some ns1 } ∧
        GameGraph.add_all_edges { g with _nodes := some ns1 } =
          .ok { g with _nodes := some ns2 } ∧
        totalNb ns1 = totalNb ns + 2 * pairCount us (dictKeys ns) ∧
        totalNb ns2 = totalNb ns1 + 2 * pairCount us (dictKeys ns) ∧
        (0 < pairCount us (dictKeys ns) → ns2 ≠ ns1) := by
  intro g us ns hu hn hne hus hkeys
  obtain ⟨ns1, h1, hk1, ht1⟩ := add_all_edges_ok g us ns hu hn hne hus hkeys
  obtain ⟨ns2, h2, hk2, ht2⟩ :=
    add_all_edges_ok { g with _nodes := some ns1 } us ns1 hu rfl hne
      (fun u hu2 => by rw [hk1]; exact hus u hu2)
      (fun o ho => hkeys o (by rwa [hk1] at ho))
  refine ⟨ns1, ns2, h1, h2, ht1, ?_, ?_⟩
  · rw [ht2, hk1]
  · intro hp heq
    rw [heq, hk1] at ht2
    omega

/-- C5 witness: the amended statement exercised on `grBoth`. -/
theorem add_all_edges_not_idempotent_witness :
    ∃ ns1 ns2,
      grBoth.add_all_edges = .ok { grBoth with _nodes := some ns1 } ∧
      GameGraph.add_all_edges { grBoth with _nodes := some ns1 } =
        .ok { grBoth with _nodes := some ns2 } ∧
      totalNb ns1 = totalNb nsBoth + 2 * pairCount [1, 2] (dictKeys nsBoth) ∧
      totalNb ns2 = totalNb ns1 + 2 * pairCount [1, 2] (dictKeys nsBoth) ∧
      (0 < pairCount [1, 2] (dictKeys nsBoth) → ns2 ≠ ns1) :=
  add_all_edges_not_idempotent grBoth [1, 2] nsBoth rfl rfl (by decide) (by decide)
    (by decide)

/-- C7 counterexample: `grFallback` has no anchors (empty neighbour pool)
and a one-game scored catalog.  `highest_scoring_games 1` does fall back to
the catalog-wide `top_games`, but that call raises `KeyError` (see C3)
instead of returning the catalog-wide ranking `[scoredA]`. -/
theorem highest_scoring_games_fallback_raises :
    grFallback.highest_scoring_games 1 = .error .keyError := by
  rw [highest_scoring_games_empty_pool grFallback [] [(1, ⟨scoredA, []⟩)] 1 rfl rfl
    (by simp)]
  exact top_games_err grFallback [(1, ⟨scoredA, []⟩)] 1 rfl (by decide) (by decide)

/-- C7 (amended): when the anchors' neighbour pool is empty (in particular
with no anchors at all), `highest_scoring_games` delegates to the
catalog-wide `top_games` — the fallback itself raises nothing for lack of
anchors — and for `n <` the catalog size (scored, non-negative ratings) it
returns the catalog-wide ranking of length `n`; but it inherits
`top_games`' exhaustion behaviour, raising `KeyError` when `n ≥` the
catalog size instead of returning every game. -/
theorem highest_scoring_games_fallback :
    (∀ (g : GameGraph) (us : List Int) (ns : NodeDict) (n : Nat),
      g._user_nodes = some us → g._nodes = some ns →
      (∀ u ∈ us, ∃ node, dictGet ns u = some node ∧ node.neighbours = []) →
      g.highest_scoring_games n = g.top_games n) ∧
    (∀ (g : GameGraph) (us : List Int) (ns : NodeDict) (n : Nat),
      g._user_nodes = some us → g._nodes = some ns →
      (∀ u ∈ us, ∃ node, dictGet ns u = some node ∧ node.neighbours = []) →
      ScoredNonneg (ns.map (fun kv => kv.2.game)) → n < ns.length →
      ∃ res, g.highest_scoring_games n = .ok res ∧ res.length = n ∧ NonIncr res ∧
        ∀ x ∈ res, x ∈ ns.map (fun kv => kv.2.game)) := by
  constructor
  · exact highest_scoring_games_empty_pool
  · intro g us ns n hu hn hres hsn hlt
    rw [highest_scoring_games_empty_pool g us ns n hu hn hres]
    exact top_games_ok g ns n hn hsn hlt

/-- C7 witness: the amended statement exercised on `grRank` (no anchors,
three scored games). -/
theorem highest_scoring_games_fallback_witness :
    grRank.highest_scoring_games 2 = grRank.top_games 2 ∧
    (∃ res, grRank.highest_scoring_games 1 = .ok res ∧ res.length = 1 ∧ NonIncr res ∧
      ∀ x ∈ res, x ∈ nsRank.map (fun kv => kv.2.game)) := by
  obtain ⟨h1, h2⟩ := highest_scoring_games_fallback
  exact ⟨h1 grRank [] nsRank 2 rfl rfl (by simp),
         h2 grRank [] nsRank 1 rfl rfl (by simp) (by decide) (by decide)⟩

/-- C8 counterexample: inserting `dupGame` (id 1) into `grDup`, whose node
mapping already has key 1, raises no error at all: it returns normally and
the node stored at key 1 has been replaced (the graph is changed, not left
unchanged). -/
theorem add_game_duplicate_no_error :
    grDup.add_game dupGame = .ok grDupAfter ∧
    grDupAfter ≠ grDup ∧
    dupGame.game_id ∈ dictKeys [(1, GameNode.init alphaGame)] :=
  ⟨by rfl, by decide, by decide⟩

/-- C8 (amended): `add_game` on an id already present in `_nodes` signals
no duplicate-id error (no such exception exists in the module): it returns
normally, silently overwriting the node stored at that id — the key set is
unchanged and the stored node is the fresh one — and leaves `_user_nodes`
and the user fields untouched. -/
theorem add_game_duplicate_overwrites :
    ∀ (g : GameGraph) (ns : NodeDict) (game : Game),
      g._nodes = some ns → game.game_id ∈ dictKeys ns →
      ∃ g1, g.add_game game = .ok g1 ∧
        g1._user_nodes = g._user_nodes ∧
        g1.user_game_ids = g.user_game_ids ∧
        ∃ ns1, g1._nodes = some ns1 ∧ dictKeys ns1 = dictKeys ns ∧
          dictGet ns1 game.game_id = some (GameNode.init game) := by
  intro g ns game hn hk
  refine ⟨{ g with _nodes := some (dictSet ns game.game_id (GameNode.init game)) },
    ?_, rfl, rfl, dictSet ns game.game_id (GameNode.init game), rfl,
    dictKeys_dictSet_mem ns game.game_id (GameNode.init game) hk,
    dictGet_dictSet ns game.game_id (GameNode.init game)⟩
  simp [GameGraph.add_game, hn, pyStrInIntList_eq_false]

/-- C8 witness: the amended statement exercised on `grDup` and `dupGame`. -/
theorem add_game_duplicate_overwrites_witness :
    ∃ g1, grDup.add_game dupGame = .ok g1 ∧
      g1._user_nodes = grDup._user_nodes ∧
      g1.user_game_ids = grDup.user_game_ids ∧
      ∃ ns1, g1._nodes = some ns1 ∧
        dictKeys ns1 = dictKeys [(1, GameNode.init alphaGame)] ∧
        dictGet ns1 dupGame.game_id = some (GameNode.init dupGame) :=
  add_game_duplicate_overwrites grDup [(1, GameNode.init alphaGame)] dupGame rfl
    (by decide)
